import Mathlib

/-!
Shallow embedding of the go-wallex client library (src/client.go, src/errors.go,
src/types/baseResponse.go, src/unnamed/part_002) together with proofs about the
error-normalization layer (`parseErrorResponse`), the request executor
(`Request`), and the lenient numeric decoder (`NumericOrEmpty.UnmarshalJSON`).

Modelling conventions:
* A response body is modelled by its JSON parse outcome: `none` when the bytes
  are not valid JSON (this includes the empty body), `some v` when they parse
  to the JSON value `v`.
* JSON numbers are modelled as rationals.  Go decodes numbers into `float64`;
  the claims below only exercise integer-valued numbers in the `int16` range,
  where the `float64` round trip is exact.
* `fmt.Sprintf("%v", x)` on values produced by `json.Unmarshal` into `any` is
  modelled by `goFmtV`.  It is faithful on strings, booleans, nil, and
  integer-valued numbers of small magnitude (Go prints such `float64` values
  as plain decimal digits); the rendering of non-integer numbers and of nested
  maps (which Go prints with sorted keys) is approximated and is not relied on
  by any theorem below.
* Go map iteration order is unspecified.  `parseWithOrder` takes the iteration
  order as an explicit argument; `parseErrorResponse` instantiates it with a
  canonical order, and the determinism theorem shows the result is the same
  for every permutation of the map's entries.
-/

namespace Wallex

/-- JSON values as decoded by Go's `encoding/json` into `any`:
nil, bool, float64 (modelled as `ℚ`), string, `[]any`, `map[string]any`
(modelled as the underlying key/value list, duplicates allowed before
map construction). -/
inductive JVal where
  | jnull : JVal
  | jbool (b : Bool) : JVal
  | jnum (q : ℚ) : JVal
  | jstr (s : String) : JVal
  | jarr (xs : List JVal) : JVal
  | jobj (l : List (String × JVal)) : JVal
deriving Repr

/-- Model of `fmt.Sprintf("%v", f)` for a `float64` holding the value `q`.
Faithful when `q` is an integer of magnitude below 10^21 (Go prints the plain
decimal digits, as `strconv.Itoa` does); other values are not exercised by
the development. -/
def goFmtNum (q : ℚ) : String :=
  if q.den = 1 then toString q.num else toString q

mutual

/-- Model of `fmt.Sprintf("%v", v)` on a decoded JSON value.  Faithful on
strings (identity), booleans, nil (`<nil>`) and integer numbers; nested
arrays are rendered space-separated in brackets as Go does.  Go additionally
sorts the keys of nested maps; no theorem below depends on map rendering. -/
def goFmtV : JVal → String
  | .jnull => "<nil>"
  | .jbool true => "true"
  | .jbool false => "false"
  | .jnum q => goFmtNum q
  | .jstr s => s
  | .jarr xs => "[" ++ goFmtList xs ++ "]"
  | .jobj l => "map[" ++ goFmtPairs l ++ "]"

/-- Space-separated rendering of the elements of a decoded JSON array. -/
def goFmtList : List JVal → String
  | [] => ""
  | [x] => goFmtV x
  | x :: y :: xs => goFmtV x ++ " " ++ goFmtList (y :: xs)

/-- Space-separated `key:value` rendering of a decoded JSON object. -/
def goFmtPairs : List (String × JVal) → String
  | [] => ""
  | [kv] => kv.1 ++ ":" ++ goFmtV kv.2
  | kv :: kv2 :: l => kv.1 ++ ":" ++ goFmtV kv.2 ++ " " ++ goFmtPairs (kv2 :: l)

end

/-- Go map construction from the textual key/value list of a JSON object:
a later duplicate key overwrites an earlier one.  The resulting list has
pairwise distinct keys; it keeps, for each key, its last value, ordered by
last occurrence. -/
def dedupKeysLast : List (String × JVal) → List (String × JVal)
  | [] => []
  | kv :: rest =>
    if rest.any (fun p => p.1 == kv.1) then dedupKeysLast rest
    else kv :: dedupKeysLast rest

/-- The entries of the generic `map[string]any` decode of the body
(`json.Unmarshal(respBody, &raw)` in src/errors.go line 126):
empty when the body is not a JSON object (the decode error is discarded
and the map stays empty; JSON `null` is a no-op). -/
def objEntries : Option JVal → List (String × JVal)
  | some (.jobj l) => dedupKeysLast l
  | _ => []

/-- ASCII lower-casing of a character, modelling Go's case folding on the
ASCII field names used by the `encoding/json` struct decoder. -/
def goLowerChar (c : Char) : Char :=
  if 65 ≤ c.toNat ∧ c.toNat ≤ 90 then Char.ofNat (c.toNat + 32) else c

/-- ASCII lower-casing of a string (see `goLowerChar`). -/
def goToLower (s : String) : String := ⟨s.data.map goLowerChar⟩

/-- Model of `t.ErrorResponse` (src/types `ErrorResponse` embedding
`BaseResponse`): fields `Message`, `Success`, `Code`.  The embedded
`Result json.RawMessage` field is never read by `parseErrorResponse`
and is omitted. -/
structure ErrResp where
  Message : String
  Success : Bool
  Code : Int
deriving Repr, DecidableEq

/-- One step of the `encoding/json` struct decoder for `t.ErrorResponse`:
an object key is matched case-insensitively against the field tags
`message` (string), `success` (bool) and `code` (int16).  A mismatched
value type, an out-of-range or fractional number, and JSON `null` all
leave the field unchanged (the decode error is discarded by the caller). -/
def setErrField (e : ErrResp) (k : String) (v : JVal) : ErrResp :=
  let kl := goToLower k
  if kl = "message" then
    match v with
    | .jstr s => { e with Message := s }
    | _ => e
  else if kl = "success" then
    match v with
    | .jbool b => { e with Success := b }
    | _ => e
  else if kl = "code" then
    match v with
    | .jnum q =>
      if q.den = 1 ∧ -32768 ≤ q.num ∧ q.num ≤ 32767 then { e with Code := q.num } else e
    | _ => e
  else e

/-- Model of `json.Unmarshal(respBody, &base)` with `base t.ErrorResponse`
(src/errors.go lines 109–110): object keys are consumed in textual order,
non-objects and invalid JSON leave the zero value.  JSON numbers are
modelled by value, so an exponent-form literal such as `1e2` (which Go
rejects for an int16 field) is not distinguished from `100`; no claim
exercises that corner. -/
def decodeErrResp : Option JVal → ErrResp
  | some (.jobj l) => l.foldl (fun e kv => setErrField e kv.1 kv.2) ⟨"", false, 0⟩
  | _ => ⟨"", false, 0⟩

/-- Model of `APIError` (src/errors.go).  `Fields` is the
`map[string][]string` modelled as a lookup function (`none` = key absent);
`Result` is the raw `json.RawMessage` (`none` = nil); `EmbMessage` is the
`Message` of the embedded `GoWallexError` (assigned at the end of
`parseErrorResponse`).  The embedded `Err error` is always nil there and
is omitted. -/
structure APIError where
  StatusCode : Int
  Message : String
  Success : Bool
  Code : Int
  Result : Option String
  Fields : String → Option (List String)
  EmbMessage : String

/-- The `APIError` literal built at src/errors.go lines 103–106. -/
def initialAPIError (statusCode : Int) : APIError :=
  { StatusCode := statusCode
    Message := ""
    Success := false
    Code := 0
    Result := none
    Fields := fun _ => none
    EmbMessage := "" }

/-- The three conditional blocks at src/errors.go lines 112–122 that adopt
the documented-envelope fields: adopt a non-empty message; adopt a positive
code and record it in `Fields "code"` via `strconv.Itoa`; record a
non-empty message in `Fields "message"` (and adopt it again). -/
def applyBase (e : APIError) (b : ErrResp) : APIError :=
  let e1 := if b.Message ≠ "" then { e with Message := b.Message } else e
  let e2 :=
    if 0 < b.Code then
      { e1 with Code := b.Code
                Fields := Function.update e1.Fields "code" (some [toString b.Code]) }
    else e1
  if b.Message ≠ "" then
    { e2 with Message := b.Message
              Fields := Function.update e2.Fields "message" (some [b.Message]) }
  else e2

/-- The stringified `Fields` entry recorded for one generic-map value
(src/errors.go lines 129–147): a string becomes a one-element list, an
array maps `fmt.Sprintf("%v", ·)` over its elements, anything else becomes
a one-element list of its `%v` rendering. -/
def fieldStrings : JVal → List String
  | .jstr s => [s]
  | .jarr xs => xs.map goFmtV
  | v => [goFmtV v]

/-- The body of the `for k, v := range raw` loop (src/errors.go lines
128–148): record `Fields k`; for the key `detail` with a string value also
set `Result` to the raw string and, when no message has been adopted yet,
adopt it as `Message`. -/
def stepField (e : APIError) (k : String) (v : JVal) : APIError :=
  match v with
  | .jstr s =>
    if k = "detail" then
      if e.Message = "" then
        { e with Fields := Function.update e.Fields k (some [s])
                 Result := some s
                 Message := s }
      else
        { e with Fields := Function.update e.Fields k (some [s])
                 Result := some s }
    else { e with Fields := Function.update e.Fields k (some [s]) }
  | .jarr xs => { e with Fields := Function.update e.Fields k (some (xs.map goFmtV)) }
  | v => { e with Fields := Function.update e.Fields k (some [goFmtV v]) }

/-- Uncurried `stepField`, for folding over the map entries. -/
def stepKV (e : APIError) (kv : String × JVal) : APIError := stepField e kv.1 kv.2

/-- The fallback message synthesized at src/errors.go line 152:
`fmt.Sprintf("Wallex API error (%d)", statusCode)`. -/
def synthMsg (statusCode : Int) : String :=
  "Wallex API error (" ++ toString statusCode ++ ")"

/-- The state of the `APIError` after pass 1 (documented envelope) and
pass 2 (generic map, iterated in the given `order`) but before the
fallback-message step. -/
def mergedError (statusCode : Int) (body : Option JVal) (order : List (String × JVal)) :
    APIError :=
  order.foldl stepKV (applyBase (initialAPIError statusCode) (decodeErrResp body))

/-- Model of `parseErrorResponse` (src/errors.go lines 102–157) with the iteration
order of the generic map made explicit.  After the two passes: synthesize
the message when none was adopted, then copy `Message` into the embedded
`GoWallexError.Message`. -/
def parseWithOrder (statusCode : Int) (body : Option JVal) (order : List (String × JVal)) :
    APIError :=
  let e2 := mergedError statusCode body order
  let e3 := if e2.Message = "" then { e2 with Message := synthMsg statusCode } else e2
  { e3 with EmbMessage := e3.Message }

/-- Model of `parseErrorResponse` (src/errors.go lines 102–157), iterating the
generic map in a canonical order.  The theorem for claim C6 shows the
result does not depend on this choice. -/
def parseErrorResponse (statusCode : Int) (body : Option JVal) : APIError :=
  parseWithOrder statusCode body (objEntries body)

section DedupLemmas

theorem mem_keys_dedup {l : List (String × JVal)} {k : String}
    (h : k ∈ (dedupKeysLast l).map Prod.fst) : k ∈ l.map Prod.fst := by
  induction l with
  | nil => simp [dedupKeysLast] at h
  | cons kv rest ih =>
    rw [dedupKeysLast] at h
    simp only [List.map_cons, List.mem_cons]
    split at h
    · exact Or.inr (ih h)
    · simp only [List.map_cons, List.mem_cons] at h
      rcases h with h | h
      · exact Or.inl h
      · exact Or.inr (ih h)

theorem nodup_keys_dedup (l : List (String × JVal)) :
    ((dedupKeysLast l).map Prod.fst).Nodup := by
  induction l with
  | nil => simp [dedupKeysLast]
  | cons kv rest ih =>
    rw [dedupKeysLast]
    split
    · exact ih
    · rename_i hd
      simp only [List.map_cons, List.nodup_cons]
      refine ⟨fun hmem => ?_, ih⟩
      rcases List.mem_map.mp (mem_keys_dedup hmem) with ⟨p, hp, hpk⟩
      simp only [List.any_eq_true, beq_iff_eq] at hd
      exact hd ⟨p, hp, hpk⟩

theorem nodup_keys_objEntries (body : Option JVal) :
    ((objEntries body).map Prod.fst).Nodup := by
  cases body with
  | none => exact List.nodup_nil
  | some v =>
    cases v
    case jobj l => exact nodup_keys_dedup l
    all_goals exact List.nodup_nil

end DedupLemmas

section StepLemmas

theorem stepKV_StatusCode (e : APIError) (kv : String × JVal) :
    (stepKV e kv).StatusCode = e.StatusCode := by
  obtain ⟨k, v⟩ := kv
  cases v <;> simp only [stepKV, stepField] <;> (try split_ifs) <;> rfl

theorem foldl_stepKV_StatusCode (l : List (String × JVal)) (e : APIError) :
    (l.foldl stepKV e).StatusCode = e.StatusCode := by
  induction l generalizing e with
  | nil => rfl
  | cons kv rest ih => rw [List.foldl_cons, ih, stepKV_StatusCode]

theorem stepKV_Fields_ne {k : String} (e : APIError) (kv : String × JVal) (h : k ≠ kv.1) :
    (stepKV e kv).Fields k = e.Fields k := by
  obtain ⟨k', v⟩ := kv
  cases v <;> simp only [stepKV, stepField] <;> (try split_ifs) <;>
    simp [Function.update_noteq h]

theorem stepKV_Fields_eq (e : APIError) (k : String) (v : JVal) :
    (stepKV e (k, v)).Fields k = some (fieldStrings v) := by
  cases v <;> simp only [stepKV, stepField, fieldStrings] <;> (try split_ifs) <;>
    simp [Function.update_same]

theorem foldl_stepKV_Fields_ne {k : String} {l : List (String × JVal)}
    (h : k ∉ l.map Prod.fst) (e : APIError) :
    (l.foldl stepKV e).Fields k = e.Fields k := by
  induction l generalizing e with
  | nil => rfl
  | cons kv rest ih =>
    simp only [List.map_cons, List.mem_cons, not_or] at h
    rw [List.foldl_cons, ih h.2, stepKV_Fields_ne e kv h.1]

theorem foldl_stepKV_Fields_mem {k : String} {v : JVal} {l : List (String × JVal)}
    (hnd : (l.map Prod.fst).Nodup) (hmem : (k, v) ∈ l) (e : APIError) :
    (l.foldl stepKV e).Fields k = some (fieldStrings v) := by
  induction l generalizing e with
  | nil => cases hmem
  | cons kv rest ih =>
    simp only [List.map_cons, List.nodup_cons] at hnd
    rcases List.mem_cons.mp hmem with h | h
    · cases h
      rw [List.foldl_cons, foldl_stepKV_Fields_ne hnd.1, stepKV_Fields_eq]
    · rw [List.foldl_cons]
      exact ih hnd.2 h _

theorem stepKV_Message_of_ne (e : APIError) (kv : String × JVal) (h : e.Message ≠ "") :
    (stepKV e kv).Message = e.Message := by
  obtain ⟨k, v⟩ := kv
  cases v
  case jstr s =>
    simp only [stepKV, stepField]
    split_ifs <;> simp_all
  all_goals rfl

theorem foldl_stepKV_Message_of_ne {l : List (String × JVal)} (e : APIError)
    (h : e.Message ≠ "") : (l.foldl stepKV e).Message = e.Message := by
  induction l generalizing e with
  | nil => rfl
  | cons kv rest ih =>
    rw [List.foldl_cons, ih _ (by rw [stepKV_Message_of_ne e kv h]; exact h),
      stepKV_Message_of_ne e kv h]

theorem stepKV_comm (e : APIError) (kv1 kv2 : String × JVal) (h : kv1.1 ≠ kv2.1) :
    stepKV (stepKV e kv1) kv2 = stepKV (stepKV e kv2) kv1 := by
  obtain ⟨k1, v1⟩ := kv1
  obtain ⟨k2, v2⟩ := kv2
  simp only [ne_eq] at h
  cases e
  cases v1 <;> cases v2 <;>
    simp only [stepKV, stepField] <;>
    (try split_ifs) <;>
    simp_all <;>
    exact Function.update_comm (by assumption) _ _ _

end StepLemmas

section PipelineLemmas

theorem applyBase_Message_of_ne (e : APIError) (b : ErrResp) (h : b.Message ≠ "") :
    (applyBase e b).Message = b.Message := by
  simp [applyBase, h]

theorem parseWithOrder_Fields (s : Int) (b : Option JVal) (o : List (String × JVal)) :
    (parseWithOrder s b o).Fields = (mergedError s b o).Fields := by
  simp only [parseWithOrder]
  split <;> rfl

theorem parseWithOrder_Message (s : Int) (b : Option JVal) (o : List (String × JVal)) :
    (parseWithOrder s b o).Message =
      if (mergedError s b o).Message = "" then synthMsg s
      else (mergedError s b o).Message := by
  simp only [parseWithOrder]
  split <;> rfl

theorem parseWithOrder_StatusCode (s : Int) (b : Option JVal) (o : List (String × JVal)) :
    (parseWithOrder s b o).StatusCode = s := by
  have hm : (mergedError s b o).StatusCode = s := by
    have h1 := foldl_stepKV_StatusCode o (applyBase (initialAPIError s) (decodeErrResp b))
    have h2 : (applyBase (initialAPIError s) (decodeErrResp b)).StatusCode = s := by
      simp only [applyBase, initialAPIError]
      split_ifs <;> rfl
    rw [mergedError, h1, h2]
  simp only [parseWithOrder]
  split <;> exact hm

theorem stepKV_Code (e : APIError) (kv : String × JVal) :
    (stepKV e kv).Code = e.Code := by
  obtain ⟨k, v⟩ := kv
  cases v <;> simp only [stepKV, stepField] <;> (try split_ifs) <;> rfl

theorem foldl_stepKV_Code (l : List (String × JVal)) (e : APIError) :
    (l.foldl stepKV e).Code = e.Code := by
  induction l generalizing e with
  | nil => rfl
  | cons kv rest ih => rw [List.foldl_cons, ih, stepKV_Code]

theorem parseWithOrder_Code (s : Int) (b : Option JVal) (o : List (String × JVal)) :
    (parseWithOrder s b o).Code = (mergedError s b o).Code := by
  simp only [parseWithOrder]
  split <;> rfl

theorem parseWithOrder_Result (s : Int) (b : Option JVal) (o : List (String × JVal)) :
    (parseWithOrder s b o).Result = (mergedError s b o).Result := by
  simp only [parseWithOrder]
  split <;> rfl

theorem parseErrorResponse_StatusCode (s : Int) (b : Option JVal) :
    (parseErrorResponse s b).StatusCode = s :=
  parseWithOrder_StatusCode s b (objEntries b)

theorem map_goFmtV_jstr (l : List String) : (l.map JVal.jstr).map goFmtV = l := by
  induction l with
  | nil => rfl
  | cons a t ih => simp only [List.map_cons, ih, goFmtV]

theorem synthMsg_ne_empty (s : Int) : synthMsg s ≠ "" := by
  intro h
  have h2 : (synthMsg s).length = 0 := by rw [h]; rfl
  simp only [synthMsg, String.length_append] at h2
  have h18 : ("Wallex API error (" : String).length = 18 := by decide
  have hp : ((")" : String)).length = 1 := by decide
  rw [h18, hp] at h2
  omega

end PipelineLemmas

/-- Model of `Client` (src/client.go): only the fields `Request` reads.
The `HttpClient` transport is modelled by the `ReqWorld` oracle below. -/
structure ClientM where
  BaseUrl : String
  Version : String
  ApiKey : String

/-- Model of `assertAuth` (src/client.go lines 102–110): `some msg` models the
returned `*GoWallexError` with that `Message`, `none` models nil. -/
def assertAuth (c : ClientM) : Option String :=
  if c.ApiKey = "" then some "API Key is empty" else none

/-- The HTTP response obtained from the transport: Go's
`resp.StatusCode`. -/
structure HTTPResp where
  statusCode : Int

/-- Oracle for the outcomes of the fallible external steps inside
`Request`.  Each `Option String` holds the error message of that step when
it fails (`none` = success).  `sendResp` is the response when the transport
succeeds and `readBody` the JSON parse outcome of the raw body bytes when
the body read succeeds.  The successfully encoded query string and request
body do not influence the outcome classification and are not modelled. -/
structure ReqWorld where
  paramEncErr : Option String
  bodyEncErr : Option String
  newReqErr : Option String
  sendErr : Option String
  sendResp : HTTPResp
  readErr : Option String
  readBody : Option JVal
  decodeErr : Option String

/-- The classification of a `Request` outcome: nil, `*RequestError`
(operation stage, message, wrapped cause), the `*GoWallexError` returned
on a failed auth check (message, wrapped cause), or `*APIError`. -/
inductive ReqOutcome where
  | ok : ReqOutcome
  | reqErr (operation : String) (msg : String) (cause : String) : ReqOutcome
  | configErr (msg : String) (cause : String) : ReqOutcome
  | apiErr (e : APIError) : ReqOutcome

/-- Model of `Client.Request` (src/client.go lines 146–247).  `hasBody` models
`body != nil` and `hasResult` models `result != nil`.  The second
component counts invocations of `c.HttpClient.Do` (the network calls).
The step order matches the source: GET query-parameter encoding, POST
body marshalling, `http.NewRequest`, the auth check (`assertAuth`) when
`auth` is set, the network round trip, the body read, the status-class
check handing non-2xx bodies to `parseErrorResponse`, and the decode of
a success body into `result`. -/
def Request (c : ClientM) (method : String) (auth : Bool) (hasBody hasResult : Bool)
    (w : ReqWorld) : ReqOutcome × Nat :=
  if method = "GET" ∧ hasBody ∧ w.paramEncErr.isSome then
    (.reqErr "preparing request parameters" "failed to convert struct to URL params"
      (w.paramEncErr.getD ""), 0)
  else if method = "POST" ∧ hasBody ∧ w.bodyEncErr.isSome then
    (.reqErr "preparing request body" "failed to marshal request body"
      (w.bodyEncErr.getD ""), 0)
  else if w.newReqErr.isSome then
    (.reqErr "creating request" "failed to create request" (w.newReqErr.getD ""), 0)
  else if auth ∧ (assertAuth c).isSome then
    (.configErr "authentication validation failed" ((assertAuth c).getD ""), 0)
  else if w.sendErr.isSome then
    (.reqErr "sending request" "failed to send request" (w.sendErr.getD ""), 1)
  else if w.readErr.isSome then
    (.reqErr "reading response" "failed to read response body" (w.readErr.getD ""), 1)
  else if w.sendResp.statusCode < 200 ∨ 300 ≤ w.sendResp.statusCode then
    (.apiErr (parseErrorResponse w.sendResp.statusCode w.readBody), 1)
  else if hasResult ∧ w.decodeErr.isSome then
    (.reqErr "parsing response" "failed to unmarshal response" (w.decodeErr.getD ""), 1)
  else (.ok, 1)

/-- Model of `json.Unmarshal(data, &num)` with `num float64`
(src/unnamed/part_002 lines 12–16): succeeds exactly on a JSON number
(yielding its value) and on JSON `null` (a no-op that keeps the zero
value of `num`); every other input, including invalid JSON, fails. -/
def goUnmarshalFloat : Option JVal → Option ℚ
  | some (.jnum q) => some q
  | some .jnull => some 0
  | _ => none

/-- Model of `json.Unmarshal(data, &s)` with `s string`
(src/unnamed/part_002 lines 18–20): succeeds exactly on a JSON string
and on JSON `null` (no-op keeping the empty zero value). -/
def goUnmarshalString : Option JVal → Option String
  | some (.jstr s) => some s
  | some .jnull => some ""
  | _ => none

/-- Model of `NumericOrEmpty.UnmarshalJSON` (src/unnamed/part_002 lines 10–41).
`pf` abstracts `strconv.ParseFloat(s, 64)` (`none` = parse error); the
input byte slice is modelled by its JSON parse outcome.  Mirrors the
source: try a number, then a string (with the `"-"` special case, then
`ParseFloat`, then the zero fallback), then the final zero fallback. -/
def numericOrEmptyUnmarshalJSON (pf : String → Option ℚ) (d : Option JVal) :
    Except String ℚ :=
  match goUnmarshalFloat d with
  | some num => .ok num
  | none =>
    match goUnmarshalString d with
    | some s =>
      if s = "-" then .ok 0
      else
        match pf s with
        | some parsed => .ok parsed
        | none => .ok 0
    | none => .ok 0

section ClaimC6

/-- C6: normalizing the same byte payload twice with the same status code
yields field-for-field identical `APIError` values: the result of
`parseErrorResponse` does not depend on the iteration order of the
unordered generic map, so any two permutations of the map's entries
produce equal results. -/
theorem C6_parse_deterministic (status : Int) (body : Option JVal)
    (o1 o2 : List (String × JVal))
    (h1 : o1.Perm (objEntries body)) (h2 : o2.Perm (objEntries body)) :
    parseWithOrder status body o1 = parseWithOrder status body o2 := by
  have hperm : o1.Perm o2 := h1.trans h2.symm
  have hnd : (o1.map Prod.fst).Nodup :=
    (h1.map Prod.fst).nodup_iff.mpr (nodup_keys_objEntries body)
  have hfold : ∀ e : APIError, o1.foldl stepKV e = o2.foldl stepKV e := by
    intro e
    refine hperm.foldl_eq' ?_ e
    intro x hx y hy z
    by_cases hxy : x.1 = y.1
    · have hx_eq : x = y := List.inj_on_of_nodup_map hnd hx hy hxy
      rw [hx_eq]
    · exact stepKV_comm z x y hxy
  simp only [parseWithOrder, mergedError]
  rw [hfold]

/-- Witness for C6: a concrete two-key payload normalized along its two
possible iteration orders. -/
theorem C6_witness :
    parseWithOrder 422 (some (.jobj [("a", .jstr "x"), ("b", .jstr "y")]))
        [("a", JVal.jstr "x"), ("b", JVal.jstr "y")] =
      parseWithOrder 422 (some (.jobj [("a", .jstr "x"), ("b", .jstr "y")]))
        [("b", JVal.jstr "y"), ("a", JVal.jstr "x")] :=
  C6_parse_deterministic 422 (some (.jobj [("a", .jstr "x"), ("b", .jstr "y")]))
    [("a", JVal.jstr "x"), ("b", JVal.jstr "y")]
    [("b", JVal.jstr "y"), ("a", JVal.jstr "x")]
    (List.Perm.refl _)
    (List.Perm.swap ("a", JVal.jstr "x") ("b", JVal.jstr "y") [])

end ClaimC6

section ClaimC2

/-- C2: for every status code and every payload, the normalized error has
a non-empty `Message`; when the two decode passes adopted no message, the
message is the synthesized string, which contains the status code. -/
theorem C2_message_always_populated (status : Int) (body : Option JVal) :
    (parseErrorResponse status body).Message ≠ "" ∧
      ((mergedError status body (objEntries body)).Message = "" →
        (parseErrorResponse status body).Message = synthMsg status ∧
          ∃ pre post, (parseErrorResponse status body).Message =
            pre ++ toString status ++ post) := by
  constructor
  · rw [parseErrorResponse, parseWithOrder_Message]
    split
    · exact synthMsg_ne_empty status
    · assumption
  · intro hm
    rw [parseErrorResponse, parseWithOrder_Message, if_pos hm]
    exact ⟨rfl, "Wallex API error (", ")", rfl⟩

/-- Witness for C2 at status 503 with an unparseable (empty) body. -/
theorem C2_witness :
    (parseErrorResponse 503 none).Message ≠ "" ∧
      (parseErrorResponse 503 none).Message = synthMsg 503 := by
  have h := C2_message_always_populated 503 none
  have hm : (mergedError 503 none (objEntries none)).Message = "" := rfl
  exact ⟨h.1, (h.2 hm).1⟩

end ClaimC2

section ClaimC7

/-- C7: for the empty body (invalid JSON, parse outcome `none`) and for
the payload `{}` alike, the normalizer yields the synthesized non-empty
message containing the status code and an empty `Fields` map; both decode
passes recover nothing. -/
theorem C7_empty_and_braces (status : Int) :
    ((parseErrorResponse status none).Message = synthMsg status ∧
      (parseErrorResponse status none).Message ≠ "" ∧
      (∃ pre post,
        (parseErrorResponse status none).Message = pre ++ toString status ++ post) ∧
      (parseErrorResponse status none).Fields = fun _ => none) ∧
    ((parseErrorResponse status (some (.jobj []))).Message = synthMsg status ∧
      (parseErrorResponse status (some (.jobj []))).Message ≠ "" ∧
      (∃ pre post,
        (parseErrorResponse status (some (.jobj []))).Message =
          pre ++ toString status ++ post) ∧
      (parseErrorResponse status (some (.jobj []))).Fields = fun _ => none) := by
  have h1 : (mergedError status none (objEntries none)).Message = "" := rfl
  have h2 : (mergedError status (some (.jobj []))
      (objEntries (some (.jobj [])))).Message = "" := rfl
  have f1 : (mergedError status none (objEntries none)).Fields = fun _ => none := rfl
  have f2 : (mergedError status (some (.jobj []))
      (objEntries (some (.jobj [])))).Fields = fun _ => none := rfl
  refine ⟨⟨?_, ?_, ?_, ?_⟩, ⟨?_, ?_, ?_, ?_⟩⟩
  · rw [parseErrorResponse, parseWithOrder_Message, if_pos h1]
  · rw [parseErrorResponse, parseWithOrder_Message, if_pos h1]
    exact synthMsg_ne_empty status
  · rw [parseErrorResponse, parseWithOrder_Message, if_pos h1]
    exact ⟨"Wallex API error (", ")", rfl⟩
  · rw [parseErrorResponse, parseWithOrder_Fields, f1]
  · rw [parseErrorResponse, parseWithOrder_Message, if_pos h2]
  · rw [parseErrorResponse, parseWithOrder_Message, if_pos h2]
    exact synthMsg_ne_empty status
  · rw [parseErrorResponse, parseWithOrder_Message, if_pos h2]
    exact ⟨"Wallex API error (", ")", rfl⟩
  · rw [parseErrorResponse, parseWithOrder_Fields, f2]

end ClaimC7

section ClaimC10

/-- C10: `NumericOrEmpty.UnmarshalJSON` never reports an error: a JSON
number yields that number, a JSON string accepted by `ParseFloat` (other
than the special-cased "-") yields the parsed value, and every other
input — "-", the empty string, non-numeric strings, objects, arrays,
null, and invalid JSON — silently yields 0. -/
theorem C10_unmarshal_never_fails (pf : String → Option ℚ) (d : Option JVal) :
    (∃ v, numericOrEmptyUnmarshalJSON pf d = .ok v) ∧
      (∀ q, d = some (.jnum q) → numericOrEmptyUnmarshalJSON pf d = .ok q) ∧
      (∀ s q, d = some (.jstr s) → s ≠ "-" → pf s = some q →
        numericOrEmptyUnmarshalJSON pf d = .ok q) ∧
      (∀ s, d = some (.jstr s) → s = "-" ∨ pf s = none →
        numericOrEmptyUnmarshalJSON pf d = .ok 0) ∧
      ((∀ q, d ≠ some (.jnum q)) → (∀ s, d ≠ some (.jstr s)) →
        numericOrEmptyUnmarshalJSON pf d = .ok 0) := by
  refine ⟨?_, ?_, ?_, ?_, ?_⟩
  · rcases d with _ | v
    · exact ⟨0, rfl⟩
    · cases v
      case jstr s =>
        simp only [numericOrEmptyUnmarshalJSON, goUnmarshalFloat, goUnmarshalString]
        split_ifs
        · exact ⟨0, rfl⟩
        · cases hpf : pf s with
          | none => exact ⟨0, by simp [hpf]⟩
          | some q => exact ⟨q, by simp [hpf]⟩
      case jnum q => exact ⟨q, rfl⟩
      all_goals exact ⟨0, rfl⟩
  · intro q hd
    subst hd
    rfl
  · intro s q hd hs hpf
    subst hd
    simp [numericOrEmptyUnmarshalJSON, goUnmarshalFloat, goUnmarshalString, hs, hpf]
  · intro s hd h
    subst hd
    rcases h with h | h
    · simp [numericOrEmptyUnmarshalJSON, goUnmarshalFloat, goUnmarshalString, h]
    · by_cases hs : s = "-" <;>
        simp [numericOrEmptyUnmarshalJSON, goUnmarshalFloat, goUnmarshalString, h, hs]
  · intro h1 h2
    rcases d with _ | v
    · rfl
    · cases v
      case jnum q => exact absurd rfl (h1 q)
      case jstr s => exact absurd rfl (h2 s)
      all_goals rfl

/-- Witness for C10: the string "-" decodes without error to 0 under a
`ParseFloat` oracle that rejects everything. -/
theorem C10_witness :
    numericOrEmptyUnmarshalJSON (fun _ => none) (some (.jstr "-")) = .ok 0 :=
  (C10_unmarshal_never_fails (fun _ => none) (some (.jstr "-"))).2.2.2.1
    "-" rfl (Or.inl rfl)

end ClaimC10

section ClaimC1

/-- C1: a well-formed documented error payload
`{"success":false,"code":C,"message":M}` with non-empty string M and
positive int16-representable C normalizes to `Message = M`, `Code = C`,
`Fields "code" = [toString C]` and `Fields "message" = [M]`; the generic
second pass re-renders the float64 code via `%v`, which coincides with
`strconv.Itoa` on these values. -/
theorem C1_documented_payload (status C : Int) (M : String)
    (hC : 0 < C) (hC16 : C ≤ 32767) (hM : M ≠ "") :
    (parseErrorResponse status (some (.jobj [("success", .jbool false),
        ("code", .jnum (C : ℚ)), ("message", .jstr M)]))).Message = M ∧
    (parseErrorResponse status (some (.jobj [("success", .jbool false),
        ("code", .jnum (C : ℚ)), ("message", .jstr M)]))).Code = C ∧
    (parseErrorResponse status (some (.jobj [("success", .jbool false),
        ("code", .jnum (C : ℚ)), ("message", .jstr M)]))).Fields "code" =
      some [toString C] ∧
    (parseErrorResponse status (some (.jobj [("success", .jbool false),
        ("code", .jnum (C : ℚ)), ("message", .jstr M)]))).Fields "message" =
      some [M] := by
  have hden : ((C : ℚ)).den = 1 := Rat.den_intCast C
  have hnum : ((C : ℚ)).num = C := Rat.num_intCast C
  have hlo : (-32768 : Int) ≤ C := by omega
  have hks : goToLower "success" = "success" := by decide
  have hkc : goToLower "code" = "code" := by decide
  have hkm : goToLower "message" = "message" := by decide
  have s2 : ∀ e : ErrResp, setErrField e "code" (.jnum (C : ℚ)) = { e with Code := C } := by
    intro e
    simp [setErrField, hkc, hden, hnum, hlo, hC16]
  have s3 : ∀ e : ErrResp, setErrField e "message" (.jstr M) = { e with Message := M } := by
    intro e
    simp [setErrField, hkm]
  have hbase : decodeErrResp (some (.jobj [("success", .jbool false),
      ("code", .jnum (C : ℚ)), ("message", .jstr M)])) = ⟨M, false, C⟩ := by
    show setErrField (setErrField (setErrField ⟨"", false, 0⟩ "success" (.jbool false))
      "code" (.jnum (C : ℚ))) "message" (.jstr M) = ⟨M, false, C⟩
    rw [show setErrField ⟨"", false, 0⟩ "success" (.jbool false) = ⟨"", false, 0⟩ from by
      decide]
    rw [s2, s3]
  have e1eq : applyBase (initialAPIError status) ⟨M, false, C⟩ =
      { StatusCode := status, Message := M, Success := false, Code := C, Result := none,
        Fields := Function.update (Function.update (fun _ => none) "code"
          (some [toString C])) "message" (some [M]),
        EmbMessage := "" } := by
    simp [applyBase, initialAPIError, hM, hC]
  have hentries : objEntries (some (.jobj [("success", .jbool false),
      ("code", .jnum (C : ℚ)), ("message", .jstr M)])) =
      [("success", .jbool false), ("code", .jnum (C : ℚ)), ("message", .jstr M)] := by
    simp [objEntries, dedupKeysLast]
  have hmsg : (mergedError status (some (.jobj [("success", .jbool false),
      ("code", .jnum (C : ℚ)), ("message", .jstr M)]))
      (objEntries (some (.jobj [("success", .jbool false),
        ("code", .jnum (C : ℚ)), ("message", .jstr M)])))).Message = M := by
    rw [mergedError, hbase, e1eq, foldl_stepKV_Message_of_ne _ hM]
  have hcode : (mergedError status (some (.jobj [("success", .jbool false),
      ("code", .jnum (C : ℚ)), ("message", .jstr M)]))
      (objEntries (some (.jobj [("success", .jbool false),
        ("code", .jnum (C : ℚ)), ("message", .jstr M)])))).Code = C := by
    rw [mergedError, foldl_stepKV_Code, hbase, e1eq]
  have hnd := nodup_keys_objEntries (some (.jobj [("success", .jbool false),
    ("code", .jnum (C : ℚ)), ("message", .jstr M)]))
  have hmemc : ("code", JVal.jnum (C : ℚ)) ∈ objEntries (some (.jobj
      [("success", .jbool false), ("code", .jnum (C : ℚ)), ("message", .jstr M)])) := by
    rw [hentries]
    simp
  have hmemm : ("message", JVal.jstr M) ∈ objEntries (some (.jobj
      [("success", .jbool false), ("code", .jnum (C : ℚ)), ("message", .jstr M)])) := by
    rw [hentries]
    simp
  have hfmt : fieldStrings (.jnum (C : ℚ)) = [toString C] := by
    simp [fieldStrings, goFmtV, goFmtNum, hden, hnum]
  have hfm : fieldStrings (.jstr M) = [M] := by
    simp [fieldStrings]
  refine ⟨?_, ?_, ?_, ?_⟩
  · rw [parseErrorResponse, parseWithOrder_Message, hmsg, if_neg hM]
  · rw [parseErrorResponse, parseWithOrder_Code, hcode]
  · rw [parseErrorResponse, parseWithOrder_Fields, mergedError,
      foldl_stepKV_Fields_mem hnd hmemc, hfmt]
  · rw [parseErrorResponse, parseWithOrder_Fields, mergedError,
      foldl_stepKV_Fields_mem hnd hmemm, hfm]

/-- Witness for C1 at the documented example payload. -/
theorem C1_witness :
    (parseErrorResponse 401 (some (.jobj [("success", .jbool false),
        ("code", .jnum ((1201 : Int) : ℚ)),
        ("message", .jstr "invalid API key format")]))).Message =
      "invalid API key format" ∧
    (parseErrorResponse 401 (some (.jobj [("success", .jbool false),
        ("code", .jnum ((1201 : Int) : ℚ)),
        ("message", .jstr "invalid API key format")]))).Code = 1201 ∧
    (parseErrorResponse 401 (some (.jobj [("success", .jbool false),
        ("code", .jnum ((1201 : Int) : ℚ)),
        ("message", .jstr "invalid API key format")]))).Fields "code" =
      some [toString (1201 : Int)] ∧
    (parseErrorResponse 401 (some (.jobj [("success", .jbool false),
        ("code", .jnum ((1201 : Int) : ℚ)),
        ("message", .jstr "invalid API key format")]))).Fields "message" =
      some ["invalid API key format"] :=
  C1_documented_payload 401 1201 "invalid API key format"
    (by decide) (by decide) (by decide)

end ClaimC1

section ClaimC3

/-- C3 is refuted at the empty detail string: the payload `{"detail":""}`
does not yield `Message = ""` as the claim (quantified over every string
D) requires — the synthesized fallback message is adopted instead. -/
theorem C3_counterexample :
    ¬ ((parseErrorResponse 400 (some (.jobj [("detail", .jstr "")]))).Message = "") := by
  decide

/-- C3 (amended): for every NON-EMPTY string D, the payload exactly
`{"detail": D}` normalizes to `Message = D`, `Result = D` (the raw string
bytes) and `Fields "detail" = [D]`; moreover a detail value never
overrides a message adopted from the documented envelope (whenever the
envelope decode recovered a non-empty message, that message is the final
one). -/
theorem C3_detail_amended (status : Int) :
    (∀ D : String, D ≠ "" →
      (parseErrorResponse status (some (.jobj [("detail", .jstr D)]))).Message = D ∧
      (parseErrorResponse status (some (.jobj [("detail", .jstr D)]))).Result = some D ∧
      (parseErrorResponse status (some (.jobj [("detail", .jstr D)]))).Fields "detail" =
        some [D]) ∧
    (∀ body : Option JVal, (decodeErrResp body).Message ≠ "" →
      (parseErrorResponse status body).Message = (decodeErrResp body).Message) := by
  constructor
  · intro D hD
    have hkd : goToLower "detail" = "detail" := by decide
    have hbase : decodeErrResp (some (.jobj [("detail", .jstr D)])) = ⟨"", false, 0⟩ := by
      show setErrField ⟨"", false, 0⟩ "detail" (.jstr D) = ⟨"", false, 0⟩
      simp [setErrField, hkd]
    have happly : applyBase (initialAPIError status) ⟨"", false, 0⟩ =
        initialAPIError status := by
      simp [applyBase]
    have hentries : objEntries (some (.jobj [("detail", .jstr D)])) =
        [("detail", .jstr D)] := by
      simp [objEntries, dedupKeysLast]
    have hstep : stepKV (initialAPIError status) ("detail", .jstr D) =
        { StatusCode := status, Message := D, Success := false, Code := 0,
          Result := some D,
          Fields := Function.update (fun _ => none) "detail" (some [D]),
          EmbMessage := "" } := by
      simp [stepKV, stepField, initialAPIError]
    have hmerged : mergedError status (some (.jobj [("detail", .jstr D)]))
        (objEntries (some (.jobj [("detail", .jstr D)]))) =
        { StatusCode := status, Message := D, Success := false, Code := 0,
          Result := some D,
          Fields := Function.update (fun _ => none) "detail" (some [D]),
          EmbMessage := "" } := by
      rw [mergedError, hentries, hbase, happly, List.foldl_cons, List.foldl_nil, hstep]
    refine ⟨?_, ?_, ?_⟩
    · rw [parseErrorResponse, parseWithOrder_Message, hmerged, if_neg hD]
    · rw [parseErrorResponse, parseWithOrder_Result, hmerged]
    · rw [parseErrorResponse, parseWithOrder_Fields, hmerged]
      simp
  · intro body hb
    have ha : (applyBase (initialAPIError status) (decodeErrResp body)).Message =
        (decodeErrResp body).Message := applyBase_Message_of_ne _ _ hb
    have ha' : (applyBase (initialAPIError status) (decodeErrResp body)).Message ≠ "" := by
      rw [ha]
      exact hb
    have hmg : (mergedError status body (objEntries body)).Message =
        (decodeErrResp body).Message := by
      rw [mergedError, foldl_stepKV_Message_of_ne _ ha', ha]
    rw [parseErrorResponse, parseWithOrder_Message, hmg, if_neg hb]

/-- Witness for C3 (amended): the documented example detail payload, and a
payload whose envelope message survives a competing detail value. -/
theorem C3_witness :
    (parseErrorResponse 404 (some (.jobj
      [("detail", .jstr "missing required parameter")]))).Message =
      "missing required parameter" ∧
    (parseErrorResponse 422 (some (.jobj [("message", .jstr "outer"),
      ("detail", .jstr "inner")]))).Message = "outer" := by
  constructor
  · exact ((C3_detail_amended 404).1 "missing required parameter" (by decide)).1
  · have h := (C3_detail_amended 422).2
      (some (.jobj [("message", .jstr "outer"), ("detail", .jstr "inner")])) (by decide)
    rw [h]
    decide

end ClaimC3

section ClaimC8

/-- C8: whenever the generic map holds, for a key K, a JSON array whose
elements are all strings, the normalizer records `Fields K` as exactly
those strings, in the array's order. -/
theorem C8_array_field (status : Int) (body : Option JVal) (K : String)
    (ss : List String)
    (h : (K, JVal.jarr (ss.map JVal.jstr)) ∈ objEntries body) :
    (parseErrorResponse status body).Fields K = some ss := by
  rw [parseErrorResponse, parseWithOrder_Fields, mergedError,
    foldl_stepKV_Fields_mem (nodup_keys_objEntries body) h]
  rw [show fieldStrings (JVal.jarr (ss.map JVal.jstr)) = (ss.map JVal.jstr).map goFmtV
    from rfl]
  rw [map_goFmtV_jstr]

/-- Witness for C8 at the payload from the specification,
`{"errors":["a","b"]}`. -/
theorem C8_witness :
    (parseErrorResponse 400 (some (.jobj
      [("errors", .jarr [.jstr "a", .jstr "b"])]))).Fields "errors" =
      some ["a", "b"] :=
  C8_array_field 400 (some (.jobj [("errors", .jarr [.jstr "a", .jstr "b"])]))
    "errors" ["a", "b"] (by simp [objEntries, dedupKeysLast])

end ClaimC8

section ClaimC4

/-- C4: when the request-construction steps succeed and the transport
returns a response with status outside 200–299 whose body is read
successfully, `Request` returns the `APIError` produced by the normalizer
from the raw body — carrying `StatusCode` equal to the response status,
after exactly one network call — and never a `RequestError`; in
particular HTTP 400 with body `{"message":"invalid symbol"}` yields
`StatusCode = 400` and `Message = "invalid symbol"`. -/
theorem C4_non2xx_yields_apiError (c : ClientM) (method : String) (auth : Bool)
    (hb hr : Bool) (w : ReqWorld)
    (hp : ¬ (method = "GET" ∧ hb = true ∧ w.paramEncErr.isSome = true))
    (hbe : ¬ (method = "POST" ∧ hb = true ∧ w.bodyEncErr.isSome = true))
    (hn : w.newReqErr = none)
    (ha : auth = true → c.ApiKey ≠ "")
    (hs : w.sendErr = none) (hre : w.readErr = none)
    (hst : w.sendResp.statusCode < 200 ∨ 300 ≤ w.sendResp.statusCode) :
    Request c method auth hb hr w =
      (.apiErr (parseErrorResponse w.sendResp.statusCode w.readBody), 1) ∧
    (parseErrorResponse w.sendResp.statusCode w.readBody).StatusCode =
      w.sendResp.statusCode ∧
    (parseErrorResponse 400
      (some (.jobj [("message", .jstr "invalid symbol")]))).StatusCode = 400 ∧
    (parseErrorResponse 400
      (some (.jobj [("message", .jstr "invalid symbol")]))).Message =
      "invalid symbol" := by
  refine ⟨?_, parseErrorResponse_StatusCode _ _,
    parseErrorResponse_StatusCode _ _, by decide⟩
  rw [Request.eq_def]
  split_ifs with h1 h2 h3 h4
  · rw [hn] at h1
    simp at h1
  · obtain ⟨ha1, ha2⟩ := h2
    simp only [assertAuth] at ha2
    rw [if_neg (ha ha1)] at ha2
    simp at ha2
  · rw [hs] at h3
    simp at h3
  · rw [hre] at h4
    simp at h4
  · rfl

/-- Witness for C4: a concrete GET call against a transport double
returning HTTP 400 with body `{"message":"invalid symbol"}`. -/
theorem C4_witness :
    Request ⟨"https://api.wallex.ir", "v1", ""⟩ "GET" false false true
      ⟨none, none, none, none, ⟨400⟩, none,
        some (.jobj [("message", .jstr "invalid symbol")]), none⟩ =
      (.apiErr (parseErrorResponse 400
        (some (.jobj [("message", .jstr "invalid symbol")]))), 1) ∧
    (parseErrorResponse 400
      (some (.jobj [("message", .jstr "invalid symbol")]))).Message =
      "invalid symbol" := by
  have h := C4_non2xx_yields_apiError ⟨"https://api.wallex.ir", "v1", ""⟩ "GET"
    false false true
    ⟨none, none, none, none, ⟨400⟩, none,
      some (.jobj [("message", .jstr "invalid symbol")]), none⟩
    (by simp) (by simp) rfl (by simp) rfl rfl (Or.inr (by norm_num))
  exact ⟨h.1, h.2.2.2⟩

end ClaimC4

section ClaimC5

/-- C5: an auth-required call on a client whose ApiKey is empty, whose
parameter/body/request-construction steps succeed, returns the
configuration error with zero network calls, and that error is a
different constructor from both the RequestError and APIError
families. -/
theorem C5_empty_key_config_error (c : ClientM) (method : String) (hb hr : Bool)
    (w : ReqWorld) (hkey : c.ApiKey = "")
    (hp : ¬ (method = "GET" ∧ hb = true ∧ w.paramEncErr.isSome = true))
    (hbe : ¬ (method = "POST" ∧ hb = true ∧ w.bodyEncErr.isSome = true))
    (hn : w.newReqErr = none) :
    Request c method true hb hr w =
      (.configErr "authentication validation failed" "API Key is empty", 0) ∧
    (∀ op m cause, ReqOutcome.configErr "authentication validation failed"
      "API Key is empty" ≠ .reqErr op m cause) ∧
    (∀ e, ReqOutcome.configErr "authentication validation failed"
      "API Key is empty" ≠ .apiErr e) := by
  refine ⟨?_, ?_, ?_⟩
  · rw [Request.eq_def]
    split_ifs with h1 h2 h3 h4 h5 h6
    · rw [hn] at h1
      simp at h1
    · simp [assertAuth, hkey]
    all_goals exact absurd ⟨rfl, by simp [assertAuth, hkey]⟩ h2
  · intro op m cause h
    exact ReqOutcome.noConfusion h
  · intro e h
    exact ReqOutcome.noConfusion h

/-- Witness for C5: a concrete auth-required GET on a client with an
empty ApiKey returns the configuration error with zero network calls. -/
theorem C5_witness :
    Request ⟨"https://api.wallex.ir", "v1", ""⟩ "GET" true false false
      ⟨none, none, none, none, ⟨200⟩, none, none, none⟩ =
      (.configErr "authentication validation failed" "API Key is empty", 0) :=
  (C5_empty_key_config_error ⟨"https://api.wallex.ir", "v1", ""⟩ "GET" false false
    ⟨none, none, none, none, ⟨200⟩, none, none, none⟩ rfl (by simp) (by simp) rfl).1

end ClaimC5

section ClaimC9

/-- C9 is refuted at a query-parameter encoding failure: the emitted
stage label is "preparing request parameters", which is not one of the
six labels the claim lists ("preparing parameters" and "preparing body"
are never emitted by the code). -/
theorem C9_counterexample :
    (Request ⟨"https://api.wallex.ir", "v1", ""⟩ "GET" false true false
        ⟨some "boom", none, none, none, ⟨200⟩, none, none, none⟩).1 =
      ReqOutcome.reqErr "preparing request parameters"
        "failed to convert struct to URL params" "boom" ∧
    "preparing request parameters" ∉
      (["preparing parameters", "preparing body", "creating request",
        "sending request", "reading response", "parsing response"] :
        List String) := by
  constructor
  · rfl
  · decide

/-- C9 (amended): every RequestError value returned by `Request` carries
exactly one stage label drawn from the six labels the source actually
emits — "preparing request parameters", "preparing request body",
"creating request", "sending request", "reading response",
"parsing response" — together with the underlying cause. -/
theorem C9_stage_labels (c : ClientM) (method : String) (auth : Bool)
    (hb hr : Bool) (w : ReqWorld) (op m cause : String)
    (h : (Request c method auth hb hr w).1 = .reqErr op m cause) :
    op ∈ ["preparing request parameters", "preparing request body",
      "creating request", "sending request", "reading response",
      "parsing response"] := by
  rw [Request.eq_def] at h
  split_ifs at h <;> simp_all

/-- Witness for C9 (amended) at a concrete transport failure. -/
theorem C9_witness :
    "sending request" ∈ ["preparing request parameters",
      "preparing request body", "creating request", "sending request",
      "reading response", "parsing response"] :=
  C9_stage_labels ⟨"https://api.wallex.ir", "v1", ""⟩ "GET" false false false
    ⟨none, none, none, some "net down", ⟨200⟩, none, none, none⟩
    "sending request" "failed to send request" "net down" rfl

end ClaimC9

end Wallex
